import Mathlib

/-!
Verification of the cashier-query generator: a shallow embedding of
`packages/cashier-query/src/generator.rs` (AST, field-capability registry,
escape handlers, and the compiler from a parsed query to a Postgres
predicate fragment), together with a parser for the query language
modelled from the specification (the `crate::query` module itself is not
among the repository files available here; only `generator.rs`, which
imports it, is).

Rust `Result<T, Error>` is embedded as `Except Error T`; `HashMap` as an
association list whose iteration order is its insertion order (the Rust
iteration order is unspecified); machine strings as Lean `String`
(`List Char` underneath).
-/

namespace CashierQuery

/-- Decidable equality for `Except`, used to evaluate compiler runs on
concrete inputs. -/
instance {α β : Type} [DecidableEq α] [DecidableEq β] : DecidableEq (Except α β) :=
  fun a b =>
    match a, b with
    | .ok x, .ok y => if h : x = y then .isTrue (by rw [h]) else .isFalse (by simp [h])
    | .error x, .error y => if h : x = y then .isTrue (by rw [h]) else .isFalse (by simp [h])
    | .ok _, .error _ => .isFalse (by simp)
    | .error _, .ok _ => .isFalse (by simp)

/-- The error enum of `generator.rs` (`enum Error`). -/
inductive Error where
  | InvalidValue (field : String) (accepted_type : String)
  | ParseError (pos : Nat)
  | UnsupportedOperation (field : String) (required_operation : String)
  | UnknownField (field : String)
  | EmptyWildcardOperation (required_operation : String)
deriving DecidableEq

/-- The order-comparison operators of `crate::query::OrderOperator`, as
used by `generator.rs`. -/
inductive OrderOperator where
  | Lte
  | Gte
  | Lt
  | Gt
deriving DecidableEq

/-- The query AST of `crate::query::Query`, as consumed by
`QueryConfig::query_to_postgres`: `Or`/`And` over lists of sub-queries,
negation, and the two comparison nodes with an optional field name
(`none` is the wildcard). -/
inductive Query where
  | Or (queries : List Query)
  | And (queries : List Query)
  | Not (query : Query)
  | Equal (field : Option String) (value : String)
  | Order (field : Option String) (operator : OrderOperator) (value : String)

/-- The data fields of `struct FieldConfig` except the escape handler
(factored out so that the handler function type can mention them). -/
structure FieldInfo where
  field : String
  rename : Option String
  type_name : Option String
  wildcard : Bool
  partial_order : Bool
  partial_equal : Bool
  use_like : Bool

/-- The handler type `EscapeHandler = Box<dyn Fn(&str, &FieldConfig) -> Result<String>>`.
The handlers of `generator.rs` read only the data fields of the config. -/
def EscapeHandler : Type := String → FieldInfo → Except Error String

/-- The full `struct FieldConfig`: its data fields plus the optional
escape handler. -/
structure FieldConfig where
  info : FieldInfo
  escape_handler : Option EscapeHandler

/-- Rust `value.replace(pat, rep)` for a one-character pattern: each
occurrence of `p` becomes `r`, every other character is kept. -/
def replace_char (p : Char) (r : List Char) : List Char → List Char
  | [] => []
  | c :: rest => (if c = p then r else [c]) ++ replace_char p r rest

/-- The quote-doubling `.replace("'", "''")` of `escape_quoted_with_converter`. -/
def double_quotes (l : List Char) : List Char :=
  replace_char '\'' ['\'', '\''] l

/-- Rust `escape_quoted_with_converter::<T>(converter)`: parse the input as
`T` (here an explicit partial parse function, `none` for a failed
`str::parse`), then single-quote the converted value with embedded quotes
doubled. `tname` stands for `type_name::<T>()`. -/
def escape_quoted_with_converter {T : Type} (tname : String)
    (parse_fn : String → Option T) (converter : T → String) : EscapeHandler :=
  fun input config =>
    match parse_fn input with
    | none => .error (.InvalidValue config.field (config.type_name.getD tname))
    | some value => .ok ("'" ++ String.mk (double_quotes (converter value).data) ++ "'")

/-- Rust `escape_unquoted_with_converter::<T>(converter)`: parse then emit
the converted value bare. -/
def escape_unquoted_with_converter {T : Type} (tname : String)
    (parse_fn : String → Option T) (converter : T → String) : EscapeHandler :=
  fun input config =>
    match parse_fn input with
    | none => .error (.InvalidValue config.field (config.type_name.getD tname))
    | some value => .ok (converter value)

/-- `String::from_str` in Rust is infallible: every token parses as itself. -/
def string_parse : String → Option String := fun s => some s

/-- Rust `escape_quoted::<String>()`: the default escape handler.
`type_name::<String>()` is `alloc::string::String`. -/
def escape_quoted_string : EscapeHandler :=
  escape_quoted_with_converter "alloc::string::String" string_parse id

/-- Digit-string value: `some` of the numeral exactly when the (nonempty)
character list is all decimal digits. -/
def digits_val : List Char → Option Nat
  | [] => none
  | [c] => if c.isDigit then some (c.toNat - 48) else none
  | c :: rest =>
    match digits_val rest, c.isDigit with
    | some n, true => some ((c.toNat - 48) * 10 ^ rest.length + n)
    | _, _ => none

/-- Rust `i32::from_str`: optional sign, one or more digits, result within
the i32 range. -/
def i32_parse (s : String) : Option Int :=
  let signed : Int × List Char :=
    match s.data with
    | '+' :: r => (1, r)
    | '-' :: r => (-1, r)
    | r => (1, r)
  match digits_val signed.2 with
  | none => none
  | some n =>
    let v : Int := signed.1 * n
    if -2147483648 ≤ v ∧ v ≤ 2147483647 then some v else none

/-- Rust `escape_unquoted::<i32>()` as built in `generator_test1`
(`i32::to_string` is decimal with a leading minus when negative, which is
`toString` on `Int`). -/
def escape_unquoted_i32 : EscapeHandler :=
  escape_unquoted_with_converter "i32" i32_parse (fun v : Int => toString v)

/-- `FieldConfig::new(field)`: all flags off, no rename, no type name, no
custom handler. -/
def FieldConfig.new (field : String) : FieldConfig :=
  ⟨⟨field, none, none, false, false, false, false⟩, none⟩

/-- Builder `FieldConfig::rename`. -/
def FieldConfig.rename (c : FieldConfig) (r : String) : FieldConfig :=
  { c with info := { c.info with rename := some r } }

/-- Builder `FieldConfig::type_name`. -/
def FieldConfig.type_name (c : FieldConfig) (t : String) : FieldConfig :=
  { c with info := { c.info with type_name := some t } }

/-- Builder `FieldConfig::wildcard`. -/
def FieldConfig.wildcard (c : FieldConfig) : FieldConfig :=
  { c with info := { c.info with wildcard := true } }

/-- Builder `FieldConfig::partial_order`. -/
def FieldConfig.partial_order (c : FieldConfig) : FieldConfig :=
  { c with info := { c.info with partial_order := true } }

/-- Builder `FieldConfig::partial_equal`. -/
def FieldConfig.partial_equal (c : FieldConfig) : FieldConfig :=
  { c with info := { c.info with partial_equal := true } }

/-- Builder `FieldConfig::use_like`. -/
def FieldConfig.use_like (c : FieldConfig) : FieldConfig :=
  { c with info := { c.info with use_like := true } }

/-- Builder `FieldConfig::escape_handler` (named apart from the structure
field it sets). -/
def FieldConfig.set_escape_handler (c : FieldConfig) (f : EscapeHandler) : FieldConfig :=
  { c with escape_handler := some f }

/-- `FieldConfig::escape`: run the configured handler, or the default
`escape_quoted::<String>()` when none is set. -/
def FieldConfig.escape (c : FieldConfig) (input : String) : Except Error String :=
  (c.escape_handler.getD escape_quoted_string) input c.info

/-- `struct QueryConfig`: the field registry. The Rust `HashMap` is
embedded as a list keyed by `info.field`; its order stands for the
unspecified `values()` iteration order. -/
structure QueryConfig where
  fields : List FieldConfig

/-- `QueryConfig::new()`. -/
def QueryConfig.new : QueryConfig := ⟨[]⟩

/-- `QueryConfig::field`: `HashMap::insert` keyed by the config's field
name — replace an existing entry with the same key, else add the entry. -/
def QueryConfig.field (cfg : QueryConfig) (fc : FieldConfig) : QueryConfig :=
  if cfg.fields.any (fun c => c.info.field = fc.info.field) then
    ⟨cfg.fields.map (fun c => if c.info.field = fc.info.field then fc else c)⟩
  else
    ⟨cfg.fields ++ [fc]⟩

/-- `self.fields.get(field)` on the registry map. -/
def QueryConfig.get (cfg : QueryConfig) (field : String) : Option FieldConfig :=
  cfg.fields.find? (fun c => c.info.field = field)

/-- The pattern-metacharacter escaping applied before `ILIKE`, in source
order: `^` to `^^`, then `%` to `^%`, then `_` to `^_`. -/
def like_escape (value : String) : String :=
  String.mk (replace_char '_' ['^', '_']
    (replace_char '%' ['^', '%']
      (replace_char '^' ['^', '^'] value.data)))

/-- The equality fragment for one field: the `ILIKE`-with-escape form when
`use_like` is set, plain `=` otherwise (the two `format!` calls of the
`Equal` arms). -/
def render_equal (rename : String) (uses_like : Bool) (value : String) : String :=
  if uses_like then
    rename ++ " ILIKE '%' || " ++ like_escape value ++ " || '%' ESCAPE '^'"
  else
    rename ++ " = " ++ value

/-- The operator spellings of the `Order` arm. -/
def order_operator_str : OrderOperator → String
  | .Lte => "<="
  | .Gte => ">="
  | .Lt => "<"
  | .Gt => ">"

/-- The order fragment for one field: `format!("{} {} {}", rename, operator, value)`. -/
def render_order (rename : String) (operator : String) (value : String) : String :=
  rename ++ " " ++ operator ++ " " ++ value

/-- The final wrap `format!("({})", result)` of `query_to_postgres`. -/
def paren (s : String) : String := "(" ++ s ++ ")"

/-- The wildcard-equality candidates: `self.fields.values().filter(|x| x.wildcard && x.partial_equal)`. -/
def equal_candidates (cfg : QueryConfig) : List FieldConfig :=
  cfg.fields.filter (fun c => c.info.wildcard && c.info.partial_equal)

/-- The surviving per-field equality predicates of the wildcard `Equal`
arm: escape the value against each candidate, silently dropping the
candidates whose escape fails (`.map(...).flat_map(Result::ok)`). -/
def equal_survivors (cfg : QueryConfig) (value : String) : List String :=
  (equal_candidates cfg).filterMap (fun c =>
    match c.escape value with
    | .error _ => none
    | .ok v => some (render_equal (c.info.rename.getD c.info.field) c.info.use_like v))

/-- The wildcard-order candidates: `filter(|x| x.wildcard && x.partial_order)`. -/
def order_candidates (cfg : QueryConfig) : List FieldConfig :=
  cfg.fields.filter (fun c => c.info.wildcard && c.info.partial_order)

/-- The surviving per-field order predicates of the wildcard `Order` arm. -/
def order_survivors (cfg : QueryConfig) (operator : String) (value : String) : List String :=
  (order_candidates cfg).filterMap (fun c =>
    match c.escape value with
    | .error _ => none
    | .ok v => some (render_order (c.info.rename.getD c.info.field) operator v))

mutual
/-- The body of `QueryConfig::query_to_postgres` before its final
parenthesis wrap (the `result` variable of the Rust function); recursive
calls to the full function appear as `Except.map paren` of this body. -/
def query_result (cfg : QueryConfig) : Query → Except Error String
  | .Or queries =>
    if queries.isEmpty then .ok "TRUE"
    else (compile_list cfg queries).map (String.intercalate " OR ")
  | .And queries =>
    if queries.isEmpty then .ok "FALSE"
    else (compile_list cfg queries).map (String.intercalate " AND ")
  | .Not query => (query_result cfg query).map (fun s => "NOT " ++ paren s)
  | .Equal field value =>
    match field with
    | some field =>
      match cfg.get field with
      | none => .error (.UnknownField field)
      | some config =>
        if config.info.partial_equal = false then
          .error (.UnsupportedOperation field "equal")
        else
          match config.escape value with
          | .error e => .error e
          | .ok v => .ok (render_equal (config.info.rename.getD field) config.info.use_like v)
    | none =>
      let queries := equal_survivors cfg value
      if queries.isEmpty then .error (.EmptyWildcardOperation "equal")
      else .ok (String.intercalate " OR " queries)
  | .Order field operator value =>
    let operator := order_operator_str operator
    match field with
    | some field =>
      match cfg.get field with
      | none => .error (.UnknownField field)
      | some config =>
        if config.info.partial_order = false then
          .error (.UnsupportedOperation field "order")
        else
          match config.escape value with
          | .error e => .error e
          | .ok v => .ok (render_order (config.info.rename.getD field) operator v)
    | none =>
      let queries := order_survivors cfg operator value
      if queries.isEmpty then .error (.EmptyWildcardOperation "order")
      else .ok (String.intercalate " OR " queries)

/-- `queries.iter().map(|x| self.query_to_postgres(x)).collect::<Result<Vec<_>>>()`:
compile each sub-query (each result carries the final wrap of
`query_to_postgres`), stopping at the first error. -/
def compile_list (cfg : QueryConfig) : List Query → Except Error (List String)
  | [] => .ok []
  | q :: rest => do
    let s ← (query_result cfg q).map paren
    let ss ← compile_list cfg rest
    pure (s :: ss)
end

/-- `QueryConfig::query_to_postgres`: the match on the query node followed
by `Ok(format!("({})", result))`. -/
def QueryConfig.query_to_postgres (cfg : QueryConfig) (query : Query) : Except Error String :=
  (query_result cfg query).map paren

/-- The `id` field of `generator_test1`: wildcard, equality- and
order-capable, escaped as an unquoted `i32`. -/
def id_field : FieldConfig :=
  (((FieldConfig.new "id").wildcard).partial_equal).partial_order.set_escape_handler
    escape_unquoted_i32

/-- The `text` field of `generator_test1`: wildcard, renamed to a quoted
column, substring-matched, equality-capable, default escape handler. -/
def text_field : FieldConfig :=
  ((((FieldConfig.new "text").wildcard).rename "\"text\"").use_like).partial_equal

/-- The registry built in `generator_test1`. -/
def test_config : QueryConfig := (QueryConfig.new.field id_field).field text_field

/-- Modelled from the spec: the whitespace characters the grammar skips
between tokens (the `crate::query` parser module is not among the
available repository files; sections 4.1 and 6 of the spec describe it). -/
def is_ws (c : Char) : Bool := c = ' ' || c = '\n' || c = '\t' || c = '\r'

/-- Modelled from the spec: skip optional whitespace. -/
def drop_ws (l : List Char) : List Char := l.dropWhile is_ws

/-- Modelled from the spec: identifier (field-name) characters. -/
def is_ident_char (c : Char) : Bool := c.isAlpha || c.isDigit || c = '_'

/-- Modelled from the spec: characters an unquoted value token may hold —
it runs until the next delimiter or whitespace. -/
def is_value_char (c : Char) : Bool :=
  !(is_ws c) && c ≠ '(' && c ≠ ')' && c ≠ ':' && c ≠ '<' && c ≠ '>' && c ≠ '=' && c ≠ '"'

/-- Modelled from the spec: the comparison operators `:`, `<`, `<=`, `>`,
`>=` of the grammar (`colon` is equality, the rest order). -/
inductive CmpOp where
  | colon
  | lt
  | le
  | gt
  | ge

/-- Modelled from the spec: the comparison node an operator builds, with
`*` and the bare form mapping the field to the wildcard `none`. -/
def mk_comparison (field : Option String) (op : CmpOp) (value : String) : Query :=
  match op with
  | .colon => .Equal field value
  | .lt => .Order field .Lt value
  | .le => .Order field .Lte value
  | .gt => .Order field .Gt value
  | .ge => .Order field .Gte value

/-- Modelled from the spec: read one comparison operator. A parse failure
carries the unconsumed remainder at the stall point. -/
def parse_op : List Char → Except (List Char) (CmpOp × List Char)
  | '<' :: '=' :: r => .ok (.le, r)
  | '<' :: r => .ok (.lt, r)
  | '>' :: '=' :: r => .ok (.ge, r)
  | '>' :: r => .ok (.gt, r)
  | ':' :: r => .ok (.colon, r)
  | l => .error l

/-- Modelled from the spec: read a field position — `*` for the explicit
wildcard, else a nonempty identifier. -/
def parse_field : List Char → Except (List Char) (Option String × List Char)
  | '*' :: r => .ok (none, r)
  | l =>
    if (l.takeWhile is_ident_char).isEmpty then .error l
    else .ok (some (String.mk (l.takeWhile is_ident_char)), l.dropWhile is_ident_char)

/-- Modelled from the spec: the rest of a quoted value token after its
opening quote — content up to the closing quote, a backslash escaping the
next character; `none` when unterminated. -/
def quoted_body : List Char → Option (List Char × List Char)
  | [] => none
  | c :: rest =>
    if c = '"' then some ([], rest)
    else if c = '\\' then
      match rest with
      | [] => none
      | c2 :: rest2 => (quoted_body rest2).map (fun p => (c2 :: p.1, p.2))
    else (quoted_body rest).map (fun p => (c :: p.1, p.2))

/-- Modelled from the spec: a value token — quoted (embedded whitespace
and escaped quotes allowed) or a nonempty unquoted run. -/
def parse_value : List Char → Except (List Char) (String × List Char)
  | '"' :: rest =>
    match quoted_body rest with
    | some p => .ok (String.mk p.1, p.2)
    | none => .error ('"' :: rest)
  | l =>
    if (l.takeWhile is_value_char).isEmpty then .error l
    else .ok (String.mk (l.takeWhile is_value_char), l.dropWhile is_value_char)

/-- Modelled from the spec: a bare value token as a comparison — the
implicit wildcard equality. -/
def parse_bare_value (l : List Char) : Except (List Char) (Query × List Char) :=
  match parse_value l with
  | .ok (v, r) => .ok (.Equal none v, r)
  | .error e => .error e

/-- Modelled from the spec: a comparison atom — an optional field (or `*`)
followed by an operator and a value token, backtracking to
`parse_bare_value` when any of the three pieces fails. -/
def parse_comparison (l : List Char) : Except (List Char) (Query × List Char) :=
  match parse_field l with
  | .error _ => parse_bare_value l
  | .ok (field, r1) =>
    match parse_op (drop_ws r1) with
    | .error _ => parse_bare_value l
    | .ok (op, r3) =>
      match parse_value (drop_ws r3) with
      | .error _ => parse_bare_value l
      | .ok (v, r5) => .ok (mk_comparison field op v, r5)

/-- Modelled from the spec: the negation keyword `not` followed by
whitespace, returning the remainder after that whitespace. -/
def strip_not : List Char → Option (List Char)
  | 'n' :: 'o' :: 't' :: c :: r => if is_ws c then some (drop_ws r) else none
  | _ => none

/-- Modelled from the spec: mandatory whitespace, then the keyword `and`,
then mandatory whitespace — the conjunction separator. -/
def strip_and (l : List Char) : Option (List Char) :=
  match l with
  | c :: r =>
    if is_ws c then
      match drop_ws r with
      | 'a' :: 'n' :: 'd' :: c2 :: r2 => if is_ws c2 then some (drop_ws r2) else none
      | _ => none
    else none
  | [] => none

/-- Modelled from the spec: mandatory whitespace — the disjunction
(adjacency) separator. -/
def strip_ws1 : List Char → Option (List Char)
  | c :: r => if is_ws c then some (drop_ws r) else none
  | [] => none

mutual
/-- Modelled from the spec: an atom — a parenthesized disjunction, a
negated atom, or a comparison. Recursion is bounded by a fuel parameter
(the top-level entry supplies more fuel than the input length). -/
def parse_atom : Nat → List Char → Except (List Char) (Query × List Char)
  | 0, l => .error l
  | fuel + 1, l =>
    match l with
    | '(' :: r =>
      match parse_disjunction fuel (drop_ws r) with
      | .error e => .error e
      | .ok (q, r2) =>
        match drop_ws r2 with
        | ')' :: r4 => .ok (q, r4)
        | r3 => .error r3
    | _ =>
      match strip_not l with
      | some r1 =>
        match parse_atom fuel r1 with
        | .ok (q, r2) => .ok (.Not q, r2)
        | .error e => .error e
      | none => parse_comparison l

/-- Modelled from the spec: the tail of a conjunction — as long as
whitespace, `and`, whitespace and another atom follow, append that atom;
otherwise stop, leaving the input where the chain ended. -/
def parse_conj_rest : Nat → List Query → List Char → List Query × List Char
  | 0, acc, l => (acc, l)
  | fuel + 1, acc, l =>
    match strip_and l with
    | some r1 =>
      match parse_atom fuel r1 with
      | .ok (q, r2) => parse_conj_rest fuel (acc ++ [q]) r2
      | .error _ => (acc, l)
    | none => (acc, l)

/-- Modelled from the spec: a conjunction — a chain of atoms joined by the
`and` keyword, collapsing to the single atom when the chain has one. -/
def parse_conjunction : Nat → List Char → Except (List Char) (Query × List Char)
  | 0, l => .error l
  | fuel + 1, l =>
    match parse_atom fuel l with
    | .error e => .error e
    | .ok (a, r) =>
      match parse_conj_rest fuel [a] r with
      | ([q], r2) => .ok (q, r2)
      | (qs, r2) => .ok (.And qs, r2)

/-- Modelled from the spec: the tail of a disjunction — as long as
whitespace and another conjunction follow, append it; otherwise stop. -/
def parse_disj_rest : Nat → List Query → List Char → List Query × List Char
  | 0, acc, l => (acc, l)
  | fuel + 1, acc, l =>
    match strip_ws1 l with
    | some r1 =>
      match parse_conjunction fuel r1 with
      | .ok (q, r2) => parse_disj_rest fuel (acc ++ [q]) r2
      | .error _ => (acc, l)
    | none => (acc, l)

/-- Modelled from the spec: a disjunction — one or more conjunctions
separated by bare whitespace, collapsing to the single conjunction when
there is one. -/
def parse_disjunction : Nat → List Char → Except (List Char) (Query × List Char)
  | 0, l => .error l
  | fuel + 1, l =>
    match parse_conjunction fuel l with
    | .error e => .error e
    | .ok (c1, r) =>
      match parse_disj_rest fuel [c1] r with
      | ([q], r2) => .ok (q, r2)
      | (qs, r2) => .ok (.Or qs, r2)
end

/-- Modelled from the spec: the top-level `crate::query::parse` — skip
surrounding whitespace, yield no expression for whitespace-only input,
parse a full disjunction and require the input fully consumed. A failure
carries the unconsumed remainder at the stall point, as the nom error
holds the remaining slice. -/
def parse (l : List Char) : Except (List Char) (Option Query) :=
  if (drop_ws l).isEmpty then .ok none
  else
    match parse_disjunction (4 * (l.length + 1)) (drop_ws l) with
    | .error e => .error e
    | .ok (q, r2) =>
      if (drop_ws r2).isEmpty then .ok (some q) else .error (drop_ws r2)

/-- `QueryConfig::parse_to_postgres`: parse, turning a parse failure into
`ParseError` at `input.len() - rest.len()` (the byte offset modelled as a
character offset; the two agree on ASCII input), then compile the query
if one was produced. -/
def QueryConfig.parse_to_postgres (cfg : QueryConfig) (input : String) :
    Except Error (Option String) :=
  match parse input.data with
  | .error rest => .error (.ParseError (input.data.length - rest.length))
  | .ok none => .ok none
  | .ok (some q) => (cfg.query_to_postgres q).map some

/-- Check that every maximal run of single-quote characters in the list
has even length, `k` being the length of the quote run currently open. -/
def runs_even : Nat → List Char → Bool
  | k, [] => k % 2 == 0
  | k, c :: rest => if c = '\'' then runs_even (k + 1) rest else (k % 2 == 0) && runs_even 0 rest

/-- The simultaneous per-character form of the pattern-metacharacter
escaping: `^` to `^^`, `%` to `^%`, `_` to `^_`, all at once. -/
def like_escape_sim : List Char → List Char
  | [] => []
  | c :: rest =>
    (if c = '^' then ['^', '^']
     else if c = '%' then ['^', '%']
     else if c = '_' then ['^', '_']
     else [c]) ++ like_escape_sim rest

/-- Quote-doubling leaves only even runs of quotes: the checker accepts
`double_quotes l` from any open run of even length. -/
theorem runs_even_double_quotes (l : List Char) :
    ∀ k, k % 2 = 0 → runs_even k (double_quotes l) = true := by
  induction l with
  | nil =>
    intro k hk
    simp [double_quotes, replace_char, runs_even, hk]
  | cons c rest ih =>
    intro k hk
    simp only [double_quotes] at ih ⊢
    by_cases hc : c = '\''
    · subst hc
      simp only [double_quotes, replace_char, if_pos rfl, List.cons_append, List.nil_append,
        runs_even, if_pos rfl]
      exact ih (k + 1 + 1) (by omega)
    · simp only [double_quotes, replace_char, if_neg hc, List.cons_append, List.nil_append,
        runs_even, if_neg hc]
      rw [ih 0 rfl]
      simp [hk]

/-- One-character replacement distributes over append. -/
theorem replace_char_append (p : Char) (r : List Char) (a b : List Char) :
    replace_char p r (a ++ b) = replace_char p r a ++ replace_char p r b := by
  induction a with
  | nil => simp [replace_char]
  | cons c rest ih => simp [replace_char, ih]

/-- The sequential replacements of the source (`^` then `%` then `_`)
equal the simultaneous per-character escaping: later passes never touch
the escape characters introduced by earlier ones. -/
theorem like_escape_chars (l : List Char) :
    replace_char '_' ['^', '_'] (replace_char '%' ['^', '%']
      (replace_char '^' ['^', '^'] l)) = like_escape_sim l := by
  induction l with
  | nil => rfl
  | cons c rest ih =>
    simp only [replace_char, replace_char_append, like_escape_sim, ih]
    by_cases h1 : c = '^'
    · subst h1
      simp [replace_char]
    · by_cases h2 : c = '%'
      · subst h2
        simp [replace_char]
      · by_cases h3 : c = '_'
        · subst h3
          simp [replace_char]
        · simp [replace_char, h1, h2, h3]

/-- C1: for every string token, a field config with no custom escape
handler escapes successfully to the token wrapped in single quotes with
every embedded single quote doubled, and the doubled interior (what stands
between the enclosing quotes) contains no odd-length run of consecutive
quote characters, so the value cannot terminate its enclosing literal
early. -/
theorem default_escape_injection_safe (c : FieldConfig) (h : c.escape_handler = none)
    (s : String) :
    c.escape s = .ok ("'" ++ String.mk (double_quotes s.data) ++ "'") ∧
    runs_even 0 (double_quotes s.data) = true := by
  constructor
  · simp [FieldConfig.escape, h, escape_quoted_string, escape_quoted_with_converter,
      string_parse]
  · exact runs_even_double_quotes s.data 0 rfl

/-- Witness for C1 at a concrete token holding a single quote. -/
theorem default_escape_injection_safe_witness :
    (FieldConfig.new "a").escape "ab'c" = .ok "'ab''c'" ∧
    runs_even 0 (double_quotes "ab'c".data) = true :=
  default_escape_injection_safe (FieldConfig.new "a") rfl "ab'c"

/-- C5: every successful compilation is wrapped in its own parentheses,
and the empty disjunction and conjunction compile to the parenthesized
`TRUE` and `FALSE` fragments. -/
theorem compiled_fragment_parenthesized (cfg : QueryConfig) :
    (∀ q s, cfg.query_to_postgres q = .ok s → ∃ mid, s = "(" ++ mid ++ ")") ∧
    cfg.query_to_postgres (.Or []) = .ok "(TRUE)" ∧
    cfg.query_to_postgres (.And []) = .ok "(FALSE)" := by
  refine ⟨?_, rfl, rfl⟩
  intro q s h
  unfold QueryConfig.query_to_postgres at h
  cases hq : query_result cfg q with
  | error e => rw [hq] at h; exact absurd h (by simp [Except.map])
  | ok m =>
    rw [hq] at h
    simp only [Except.map, Except.ok.injEq] at h
    exact ⟨m, h.symm⟩

/-- Witness for C5: the empty disjunction's fragment is parenthesized. -/
theorem compiled_fragment_parenthesized_witness :
    ∃ mid, "(TRUE)" = "(" ++ mid ++ ")" :=
  (compiled_fragment_parenthesized test_config).1 (.Or []) "(TRUE)" rfl

/-- C9: a wildcard comparison can fail only with the matching
`EmptyWildcardOperation` error — never `UnknownField`,
`UnsupportedOperation` or `InvalidValue`. -/
theorem wildcard_error_only_empty (cfg : QueryConfig) (value : String) :
    (∀ e, cfg.query_to_postgres (.Equal none value) = .error e →
      e = .EmptyWildcardOperation "equal") ∧
    (∀ op e, cfg.query_to_postgres (.Order none op value) = .error e →
      e = .EmptyWildcardOperation "order") := by
  constructor
  · intro e h
    simp only [QueryConfig.query_to_postgres, query_result] at h
    split at h
    · simp only [Except.map, Except.error.injEq] at h
      exact h.symm
    · exact absurd h (by simp [Except.map])
  · intro op e h
    simp only [QueryConfig.query_to_postgres, query_result] at h
    split at h
    · simp only [Except.map, Except.error.injEq] at h
      exact h.symm
    · exact absurd h (by simp [Except.map])

/-- Witness for C9: under the test registry, a wildcard order comparison
whose value no order-capable field accepts fails with exactly
`EmptyWildcardOperation`. -/
theorem wildcard_error_only_empty_witness :
    ∃ e, test_config.query_to_postgres (.Order none .Gt "ab%c") = .error e ∧
      e = Error.EmptyWildcardOperation "order" :=
  have hrun : test_config.query_to_postgres (.Order none .Gt "ab%c") =
      .error (.EmptyWildcardOperation "order") := by decide
  ⟨_, hrun, (wildcard_error_only_empty test_config "ab%c").2 .Gt _ hrun⟩

/-- C10: a field declaring no custom escape handler always escapes
successfully, and a targeted `Equal` or `Order` comparison on it never
produces `InvalidValue`. -/
theorem default_handler_no_invalid_value (cfg : QueryConfig) (name value : String)
    (c : FieldConfig) (hget : cfg.get name = some c) (hnone : c.escape_handler = none) :
    (∃ s, c.escape value = .ok s) ∧
    (∀ f t, cfg.query_to_postgres (.Equal (some name) value) ≠ .error (.InvalidValue f t)) ∧
    (∀ op f t, cfg.query_to_postgres (.Order (some name) op value) ≠
      .error (.InvalidValue f t)) := by
  have hesc : c.escape value =
      .ok ("'" ++ String.mk (double_quotes value.data) ++ "'") := by
    simp [FieldConfig.escape, hnone, escape_quoted_string, escape_quoted_with_converter,
      string_parse]
  refine ⟨⟨_, hesc⟩, ?_, ?_⟩
  · intro f t h
    simp only [QueryConfig.query_to_postgres, query_result, hget] at h
    split at h
    · simp only [Except.map, Except.error.injEq] at h
      exact Error.noConfusion h
    · rw [hesc] at h
      exact absurd h (by simp [Except.map])
  · intro op f t h
    simp only [QueryConfig.query_to_postgres, query_result, hget] at h
    split at h
    · simp only [Except.map, Except.error.injEq] at h
      exact Error.noConfusion h
    · rw [hesc] at h
      exact absurd h (by simp [Except.map])

/-- Witness for C10 on the test registry's default-escaped `text` field. -/
theorem default_handler_no_invalid_value_witness :
    (∃ s, text_field.escape "x" = .ok s) ∧
    test_config.query_to_postgres (.Equal (some "text") "x") ≠
      .error (.InvalidValue "text" "alloc::string::String") :=
  have h := default_handler_no_invalid_value test_config "text" "x" text_field rfl rfl
  ⟨h.1, h.2.1 "text" "alloc::string::String"⟩

/-- C2 counterexample: under the test registry, the `text` field is
known, equality-capable, and its escape of `"a"` succeeds, yet the
compiled fragment is the `ILIKE` contains predicate and not
`<output-name> = <literal>` — the claim's success rendering does not hold
for a substring-match flagged field. -/
theorem equal_named_field_checks_counterexample :
    text_field.escape "a" = .ok "'a'" ∧
    text_field.info.partial_equal = true ∧
    test_config.query_to_postgres (.Equal (some "text") "a") =
      .ok "(\"text\" ILIKE '%' || 'a' || '%' ESCAPE '^')" ∧
    ("(\"text\" ILIKE '%' || 'a' || '%' ESCAPE '^')" : String) ≠ "(\"text\" = 'a')" := by
  refine ⟨by decide, rfl, by decide, by decide⟩

/-- C2 as amended: a targeted `Equal` returns `UnknownField` when the
name is absent, otherwise `UnsupportedOperation` when equality is not
permitted, otherwise propagates the escape handler's error, and only
otherwise succeeds — rendering `<output-name> = <literal>` when the field
is not substring-match flagged, and the `ILIKE`-with-escape contains
predicate when it is — the checks applying in exactly that order. -/
theorem equal_named_field_checks (cfg : QueryConfig) (name value : String) :
    (cfg.get name = none →
      cfg.query_to_postgres (.Equal (some name) value) = .error (.UnknownField name)) ∧
    (∀ c, cfg.get name = some c → c.info.partial_equal = false →
      cfg.query_to_postgres (.Equal (some name) value) =
        .error (.UnsupportedOperation name "equal")) ∧
    (∀ c e, cfg.get name = some c → c.info.partial_equal = true → c.escape value = .error e →
      cfg.query_to_postgres (.Equal (some name) value) = .error e) ∧
    (∀ c v, cfg.get name = some c → c.info.partial_equal = true → c.escape value = .ok v →
      c.info.use_like = false →
      cfg.query_to_postgres (.Equal (some name) value) =
        .ok (paren ((c.info.rename.getD name) ++ " = " ++ v))) ∧
    (∀ c v, cfg.get name = some c → c.info.partial_equal = true → c.escape value = .ok v →
      c.info.use_like = true →
      cfg.query_to_postgres (.Equal (some name) value) =
        .ok (paren ((c.info.rename.getD name) ++
          " ILIKE '%' || " ++ like_escape v ++ " || '%' ESCAPE '^'"))) := by
  refine ⟨?_, ?_, ?_, ?_, ?_⟩
  · intro h
    simp [QueryConfig.query_to_postgres, query_result, h, Except.map]
  · intro c hget hpe
    simp [QueryConfig.query_to_postgres, query_result, hget, hpe, Except.map]
  · intro c e hget hpe hesc
    simp [QueryConfig.query_to_postgres, query_result, hget, hpe, hesc, Except.map]
  · intro c v hget hpe hesc hlike
    simp [QueryConfig.query_to_postgres, query_result, hget, hpe, hesc, hlike,
      render_equal, paren, Except.map]
  · intro c v hget hpe hesc hlike
    simp [QueryConfig.query_to_postgres, query_result, hget, hpe, hesc, hlike,
      render_equal, paren, Except.map]

/-- Witness for C2: each branch of the amended claim at a concrete
registry and node. -/
theorem equal_named_field_checks_witness :
    test_config.query_to_postgres (.Equal (some "ghost") "1") =
      .error (.UnknownField "ghost") ∧
    test_config.query_to_postgres (.Equal (some "id") "x") =
      .error (.InvalidValue "id" "i32") ∧
    test_config.query_to_postgres (.Equal (some "id") "5") = .ok "(id = 5)" :=
  ⟨(equal_named_field_checks test_config "ghost" "1").1 rfl,
    (equal_named_field_checks test_config "id" "x").2.2.1 id_field
      (.InvalidValue "id" "i32") rfl rfl rfl,
    (equal_named_field_checks test_config "id" "5").2.2.2.1 id_field "5" rfl rfl rfl rfl⟩

/-- C3: the wildcard `Equal` fails with `EmptyWildcardOperation` exactly
when every wildcard-eligible, equality-capable registry entry rejects the
value (in particular when there is no such entry), and otherwise succeeds
with the surviving per-field predicates joined by `OR`. -/
theorem wildcard_equal_characterization (cfg : QueryConfig) (value : String) :
    (cfg.query_to_postgres (.Equal none value) =
        .error (.EmptyWildcardOperation "equal") ↔
      ∀ c ∈ equal_candidates cfg, ∃ e, c.escape value = .error e) ∧
    (equal_survivors cfg value ≠ [] →
      cfg.query_to_postgres (.Equal none value) =
        .ok (paren (String.intercalate " OR " (equal_survivors cfg value)))) := by
  have hempty : equal_survivors cfg value = [] ↔
      ∀ c ∈ equal_candidates cfg, ∃ e, c.escape value = .error e := by
    rw [equal_survivors, List.filterMap_eq_nil_iff]
    constructor
    · intro h c hc
      have := h c hc
      cases hesc : c.escape value with
      | error e => exact ⟨e, rfl⟩
      | ok v => rw [hesc] at this; exact absurd this (by simp)
    · intro h c hc
      obtain ⟨e, hesc⟩ := h c hc
      rw [hesc]
  constructor
  · by_cases h : equal_survivors cfg value = []
    · rw [hempty] at h
      simp only [QueryConfig.query_to_postgres, query_result]
      rw [List.isEmpty_iff.mpr (hempty.mpr h)]
      simpa [Except.map] using h
    · constructor
      · intro hrun
        simp only [QueryConfig.query_to_postgres, query_result] at hrun
        rw [(by simpa using h : (equal_survivors cfg value).isEmpty = false)] at hrun
        exact absurd hrun (by simp [Except.map])
      · intro hall
        exact absurd (hempty.mpr hall) h
  · intro h
    simp only [QueryConfig.query_to_postgres, query_result]
    rw [(by simpa using h : (equal_survivors cfg value).isEmpty = false)]
    simp [Except.map, paren]

/-- Witness for C3: under the test registry both wildcard-equality fields
accept `"1"` and the fragment is their `OR`. -/
theorem wildcard_equal_characterization_witness :
    test_config.query_to_postgres (.Equal none "1") =
      .ok (paren (String.intercalate " OR " (equal_survivors test_config "1"))) :=
  (wildcard_equal_characterization test_config "1").2 (by decide)

/-- C4: a successful targeted `Equal` on a substring-match flagged field
renders the case-insensitive contains predicate
`<output-name> ILIKE '%' || <literal> || '%' ESCAPE '^'`, the literal's
`^`, `%` and `_` each replaced (simultaneously, per character) by `^^`,
`^%` and `^_`. -/
theorem use_like_equal_rendering (cfg : QueryConfig) (name value : String)
    (c : FieldConfig) (v : String) (hget : cfg.get name = some c)
    (hpe : c.info.partial_equal = true) (hlike : c.info.use_like = true)
    (hesc : c.escape value = .ok v) :
    cfg.query_to_postgres (.Equal (some name) value) =
      .ok (paren ((c.info.rename.getD name) ++
        " ILIKE '%' || " ++ like_escape v ++ " || '%' ESCAPE '^'")) ∧
    (like_escape v).data = like_escape_sim v.data := by
  constructor
  · simp [QueryConfig.query_to_postgres, query_result, hget, hpe, hesc, hlike,
      render_equal, paren, Except.map]
  · simp [like_escape, like_escape_chars]

/-- Witness for C4 at the test registry's `text` field and the value of
`generator_test1` whose `%` must not widen the pattern. -/
theorem use_like_equal_rendering_witness :
    test_config.query_to_postgres (.Equal (some "text") "ab%c") =
      .ok "(\"text\" ILIKE '%' || 'ab^%c' || '%' ESCAPE '^')" ∧
    (like_escape "'ab%c'").data = like_escape_sim "'ab%c'".data :=
  have h := use_like_equal_rendering test_config "text" "ab%c" text_field "'ab%c'"
    rfl rfl rfl rfl
  ⟨h.1, h.2⟩

/-- Skipping whitespace leaves a suffix of the input. -/
theorem drop_ws_suffix (l : List Char) : drop_ws l <:+ l := List.dropWhile_suffix is_ws
theorem suffix_tail (c : Char) (r : List Char) : r <:+ c :: r := List.suffix_cons c r
theorem suffix_tail2 (c1 c2 : Char) (r : List Char) : r <:+ c1 :: c2 :: r :=
  (List.suffix_cons c2 r).trans (List.suffix_cons c1 _)

theorem quoted_body_suffix : ∀ (l : List Char) s r, quoted_body l = some (s, r) → r <:+ l := by
  intro l
  induction l using quoted_body.induct with
  | case1 => intro s r h; exact Option.noConfusion h
  | case2 rest =>
    intro s r h
    rw [quoted_body.eq_def] at h
    simp at h
    exact h.2 ▸ suffix_tail _ _
  | case3 hne => intro s r h; exact Option.noConfusion h
  | case4 c rest hne ih =>
    intro s r h
    rw [quoted_body.eq_def] at h
    simp at h
    obtain ⟨a, hq, _⟩ := h
    exact (ih _ _ hq).trans (suffix_tail2 _ _ _)
  | case5 c rest h1 h2 ih =>
    intro s r h
    rw [quoted_body.eq_def] at h
    simp [h1, h2] at h
    obtain ⟨a, hq, _⟩ := h
    exact (ih _ _ hq).trans (suffix_tail _ _)

theorem parse_value_suffix (l : List Char) :
    (∀ e, parse_value l = .error e → e <:+ l) ∧
    ∀ v r, parse_value l = .ok (v, r) → r <:+ l := by
  constructor
  · intro e h
    unfold parse_value at h
    split at h
    · split at h
      · exact absurd h (by simp)
      · injection h with h
        exact h ▸ List.suffix_refl _
    · split at h
      · injection h with h
        exact h ▸ List.suffix_refl _
      · exact absurd h (by simp)
  · intro v r h
    unfold parse_value at h
    split at h
    · rename_i rest
      split at h
      · rename_i p hq
        injection h with h
        injection h with h1 h2
        exact h2 ▸ ((quoted_body_suffix rest p.1 p.2 (by rw [hq])).trans (suffix_tail _ _))
      · exact absurd h (by simp)
    · split at h
      · exact absurd h (by simp)
      · injection h with h
        injection h with h1 h2
        exact h2 ▸ List.dropWhile_suffix _

theorem parse_bare_value_suffix (l : List Char) :
    (∀ e, parse_bare_value l = .error e → e <:+ l) ∧
    ∀ q r, parse_bare_value l = .ok (q, r) → r <:+ l := by
  constructor
  · intro e h
    unfold parse_bare_value at h
    split at h
    · exact absurd h (by simp)
    · rename_i e' he
      injection h with h
      exact h ▸ (parse_value_suffix l).1 e' he
  · intro q r h
    unfold parse_bare_value at h
    split at h
    · rename_i v r' hv
      injection h with h
      injection h with h1 h2
      exact h2 ▸ (parse_value_suffix l).2 v r' hv
    · exact absurd h (by simp)


theorem parse_op_suffix (l : List Char) :
    (∀ e, parse_op l = .error e → e <:+ l) ∧ ∀ op r, parse_op l = .ok (op, r) → r <:+ l := by
  constructor
  · intro e h
    unfold parse_op at h
    split at h <;> simp_all
  · intro op r h
    unfold parse_op at h
    split at h <;> simp_all <;> rw [← h.2] <;>
      exact suffix_tail2 _ _ _

theorem parse_field_suffix (l : List Char) :
    (∀ e, parse_field l = .error e → e <:+ l) ∧
    ∀ f r, parse_field l = .ok (f, r) → r <:+ l := by
  constructor
  · intro e h
    unfold parse_field at h
    split at h
    · exact absurd h (by simp)
    · split at h
      · injection h with h
        exact h ▸ List.suffix_refl _
      · exact absurd h (by simp)
  · intro f r h
    unfold parse_field at h
    split at h
    · injection h with h
      injection h with h1 h2
      exact h2 ▸ suffix_tail _ _
    · split at h
      · exact absurd h (by simp)
      · injection h with h
        injection h with h1 h2
        exact h2 ▸ List.dropWhile_suffix _

theorem parse_comparison_suffix (l : List Char) :
    (∀ e, parse_comparison l = .error e → e <:+ l) ∧
    ∀ q r, parse_comparison l = .ok (q, r) → r <:+ l := by
  constructor
  · intro e h
    unfold parse_comparison at h
    split at h
    · exact (parse_bare_value_suffix l).1 e h
    · split at h
      · exact (parse_bare_value_suffix l).1 e h
      · split at h
        · exact (parse_bare_value_suffix l).1 e h
        · exact absurd h (by simp)
  · intro q r h
    unfold parse_comparison at h
    split at h
    · exact (parse_bare_value_suffix l).2 q r h
    · rename_i field r1 hf
      split at h
      · exact (parse_bare_value_suffix l).2 q r h
      · rename_i op r3 hop
        split at h
        · exact (parse_bare_value_suffix l).2 q r h
        · rename_i v r5 hv
          injection h with h
          injection h with h1 h2
          have s5 : r5 <:+ drop_ws r3 := (parse_value_suffix _).2 v r5 hv
          have s3 : r3 <:+ drop_ws r1 := (parse_op_suffix _).2 op r3 hop
          have s1 : r1 <:+ l := (parse_field_suffix l).2 field r1 hf
          exact h2 ▸ ((s5.trans (drop_ws_suffix r3)).trans
            ((s3.trans (drop_ws_suffix r1)).trans s1))
theorem strip_not_suffix (l : List Char) : ∀ r, strip_not l = some r → r <:+ l := by
  intro r h
  unfold strip_not at h
  split at h
  · rename_i c r'
    split at h
    · injection h with h
      exact h ▸ ((drop_ws_suffix r').trans
        ((suffix_tail2 't' c r').trans (suffix_tail2 'n' 'o' _)))
    · exact Option.noConfusion h
  · exact Option.noConfusion h

theorem strip_and_suffix (l : List Char) : ∀ r, strip_and l = some r → r <:+ l := by
  intro r h
  unfold strip_and at h
  split at h
  · rename_i c r'
    split at h
    · split at h
      · rename_i c2 r2 heq
        split at h
        · injection h with h
          have h1 : r2 <:+ drop_ws r' := by
            rw [heq]
            exact (suffix_tail2 'd' c2 r2).trans (suffix_tail2 'a' 'n' _)
          exact h ▸ ((drop_ws_suffix r2).trans
            ((h1.trans (drop_ws_suffix r')).trans (suffix_tail c r')))
        · exact Option.noConfusion h
      · exact Option.noConfusion h
    · exact Option.noConfusion h
  · exact Option.noConfusion h

theorem strip_ws1_suffix (l : List Char) : ∀ r, strip_ws1 l = some r → r <:+ l := by
  intro r h
  unfold strip_ws1 at h
  split at h
  · rename_i c r'
    split at h
    · injection h with h
      exact h ▸ ((drop_ws_suffix r').trans (suffix_tail c r'))
    · exact Option.noConfusion h
  · exact Option.noConfusion h

theorem parser_fuel_suffix (fuel : Nat) :
    (∀ l, (∀ e, parse_atom fuel l = .error e → e <:+ l) ∧
      ∀ q r, parse_atom fuel l = .ok (q, r) → r <:+ l) ∧
    (∀ acc l out, parse_conj_rest fuel acc l = out → out.2 <:+ l) ∧
    (∀ l, (∀ e, parse_conjunction fuel l = .error e → e <:+ l) ∧
      ∀ q r, parse_conjunction fuel l = .ok (q, r) → r <:+ l) ∧
    (∀ acc l out, parse_disj_rest fuel acc l = out → out.2 <:+ l) ∧
    (∀ l, (∀ e, parse_disjunction fuel l = .error e → e <:+ l) ∧
      ∀ q r, parse_disjunction fuel l = .ok (q, r) → r <:+ l) := by
  induction fuel with
  | zero =>
    refine ⟨?_, ?_, ?_, ?_, ?_⟩
    · intro l
      constructor
      · intro e h
        unfold parse_atom at h
        injection h with h
        subst h
        exact List.suffix_refl _
      · intro q r h
        unfold parse_atom at h
        exact Except.noConfusion h
    · intro acc l out h
      unfold parse_conj_rest at h
      rw [← h]
    · intro l
      constructor
      · intro e h
        unfold parse_conjunction at h
        injection h with h
        subst h
        exact List.suffix_refl _
      · intro q r h
        unfold parse_conjunction at h
        exact Except.noConfusion h
    · intro acc l out h
      unfold parse_disj_rest at h
      rw [← h]
    · intro l
      constructor
      · intro e h
        unfold parse_disjunction at h
        injection h with h
        subst h
        exact List.suffix_refl _
      · intro q r h
        unfold parse_disjunction at h
        exact Except.noConfusion h
  | succ fuel ih =>
    obtain ⟨iha, ihcr, ihc, ihdr, ihd⟩ := ih
    have hatom : ∀ l, (∀ e, parse_atom (fuel + 1) l = .error e → e <:+ l) ∧
        ∀ q r, parse_atom (fuel + 1) l = .ok (q, r) → r <:+ l := by
      intro l
      constructor
      · intro e h
        unfold parse_atom at h
        split at h
        · rename_i r
          split at h
          · rename_i e' hd
            injection h with h
            subst h
            exact (((ihd _).1 e' hd).trans (drop_ws_suffix r)).trans (suffix_tail _ _)
          · rename_i q r2 hd
            split at h
            · exact absurd h (by simp)
            · injection h with h
              subst h
              exact ((drop_ws_suffix r2).trans
                ((((ihd _).2 q r2 hd).trans (drop_ws_suffix r)).trans (suffix_tail _ _)))
        · split at h
          · rename_i r1 hsn
            split at h
            · exact absurd h (by simp)
            · rename_i e' ha
              injection h with h
              subst h
              exact ((iha _).1 e' ha).trans (strip_not_suffix l r1 hsn)
          · exact (parse_comparison_suffix l).1 e h
      · intro q r h
        unfold parse_atom at h
        split at h
        · rename_i r0
          split at h
          · exact absurd h (by simp)
          · rename_i q' r2 hd
            split at h
            · rename_i r4 hr4
              injection h with h
              injection h with h1 h2
              have s4 : r4 <:+ drop_ws r2 := by
                rw [hr4]
                exact suffix_tail _ _
              exact h2 ▸ ((s4.trans (drop_ws_suffix r2)).trans
                ((((ihd _).2 q' r2 hd).trans (drop_ws_suffix r0)).trans (suffix_tail _ _)))
            · exact absurd h (by simp)
        · split at h
          · rename_i r1 hsn
            split at h
            · rename_i q' r2 ha
              injection h with h
              injection h with h1 h2
              exact h2 ▸ (((iha _).2 q' r2 ha).trans (strip_not_suffix l r1 hsn))
            · exact absurd h (by simp)
          · exact (parse_comparison_suffix l).2 q r h
    have hconjrest : ∀ acc l out, parse_conj_rest (fuel + 1) acc l = out → out.2 <:+ l := by
      intro acc l out h
      unfold parse_conj_rest at h
      split at h
      · rename_i r1 hsa
        split at h
        · rename_i q r2 ha
          exact ((ihcr _ _ _ h).trans ((iha _).2 q r2 ha)).trans (strip_and_suffix l r1 hsa)
        · rw [← h]
      · rw [← h]
    have hconj : ∀ l, (∀ e, parse_conjunction (fuel + 1) l = .error e → e <:+ l) ∧
        ∀ q r, parse_conjunction (fuel + 1) l = .ok (q, r) → r <:+ l := by
      intro l
      constructor
      · intro e h
        unfold parse_conjunction at h
        split at h
        · rename_i e' ha
          injection h with h
          subst h
          exact (iha _).1 e' ha
        · rename_i a r0 ha
          split at h <;> exact absurd h (by simp)
      · intro q r h
        unfold parse_conjunction at h
        split at h
        · exact absurd h (by simp)
        · rename_i a r0 ha
          split at h
          · rename_i q1 r2 hcr
            injection h with h
            injection h with h1 h2
            exact h2 ▸ ((ihcr _ _ _ hcr).trans ((iha _).2 a r0 ha))
          · rename_i qs r2 hne hcr
            injection h with h
            injection h with h1 h2
            exact h2 ▸ ((ihcr _ _ _ hcr).trans ((iha _).2 a r0 ha))
    have hdisjrest : ∀ acc l out, parse_disj_rest (fuel + 1) acc l = out → out.2 <:+ l := by
      intro acc l out h
      unfold parse_disj_rest at h
      split at h
      · rename_i r1 hsw
        split at h
        · rename_i q r2 hc
          exact ((ihdr _ _ _ h).trans ((ihc _).2 q r2 hc)).trans (strip_ws1_suffix l r1 hsw)
        · rw [← h]
      · rw [← h]
    have hdisj : ∀ l, (∀ e, parse_disjunction (fuel + 1) l = .error e → e <:+ l) ∧
        ∀ q r, parse_disjunction (fuel + 1) l = .ok (q, r) → r <:+ l := by
      intro l
      constructor
      · intro e h
        unfold parse_disjunction at h
        split at h
        · rename_i e' hc
          injection h with h
          subst h
          exact (ihc _).1 e' hc
        · rename_i c1 r0 hc
          split at h <;> exact absurd h (by simp)
      · intro q r h
        unfold parse_disjunction at h
        split at h
        · exact absurd h (by simp)
        · rename_i c1 r0 hc
          split at h
          · rename_i q1 r2 hdr
            injection h with h
            injection h with h1 h2
            exact h2 ▸ ((ihdr _ _ _ hdr).trans ((ihc _).2 c1 r0 hc))
          · rename_i qs r2 hne hdr
            injection h with h
            injection h with h1 h2
            exact h2 ▸ ((ihdr _ _ _ hdr).trans ((ihc _).2 c1 r0 hc))
    exact ⟨hatom, hconjrest, hconj, hdisjrest, hdisj⟩

theorem parse_suffix (l : List Char) : ∀ e, parse l = .error e → e <:+ l := by
  intro e h
  unfold parse at h
  split at h
  · exact absurd h (by simp)
  · split at h
    · rename_i e' hd
      injection h with h
      subst h
      exact (((parser_fuel_suffix _).2.2.2.2 _).1 e' hd).trans (drop_ws_suffix l)
    · rename_i q r2 hd
      split at h
      · exact absurd h (by simp)
      · injection h with h
        subst h
        exact (drop_ws_suffix r2).trans
          ((((parser_fuel_suffix _).2.2.2.2 _).2 q r2 hd).trans (drop_ws_suffix l))

/-- C6: whenever parsing fails, the top-level entry point reports a
syntax error at `input length − unconsumed length`, and the unconsumed
remainder is a suffix of the whole input — so the position is an absolute
offset from the start of the input, never one relative to an inner
fragment. -/
theorem parse_error_offset (cfg : QueryConfig) (input : String) (rest : List Char)
    (h : parse input.data = .error rest) :
    cfg.parse_to_postgres input = .error (.ParseError (input.data.length - rest.length)) ∧
    rest <:+ input.data := by
  constructor
  · unfold QueryConfig.parse_to_postgres
    rw [h]
  · exact parse_suffix input.data rest h

/-- Witness for C6: parsing `id >` stalls at the operator with nothing
after it; the error position is the absolute offset 3. -/
theorem parse_error_offset_witness :
    test_config.parse_to_postgres "id >" = .error (.ParseError 3) ∧
    ">".data <:+ "id >".data :=
  parse_error_offset test_config "id >" ">".data (by rfl)

/-- C7: under every registry, an input consisting solely of whitespace
compiles to the no-predicate result `Ok(None)`, not an error. -/
theorem whitespace_only_no_predicate (cfg : QueryConfig) (input : String)
    (h : input.data.all is_ws = true) : cfg.parse_to_postgres input = .ok none := by
  have hd : drop_ws input.data = [] := by
    rw [drop_ws, List.dropWhile_eq_nil_iff]
    exact fun x hx => List.all_eq_true.mp h x hx
  unfold QueryConfig.parse_to_postgres parse
  rw [hd]
  rfl

/-- Witness for C7 at the newline input of `generator_test1`. -/
theorem whitespace_only_no_predicate_witness :
    test_config.parse_to_postgres "\n" = .ok none :=
  whitespace_only_no_predicate test_config "\n" (by decide)

/-- C8: under the test registry, `id > 1 and (id < 1 id: 1)` compiles to
exactly `((id > 1) AND ((id < 1) OR (id = 1)))` — bare adjacency parses
as the lower-precedence disjunction and the explicit `and` keyword as the
tighter-binding conjunction. -/
theorem precedence_example :
    test_config.parse_to_postgres "id > 1 and (id < 1 id: 1)" =
      .ok (some "((id > 1) AND ((id < 1) OR (id = 1)))") := by
  decide

end CashierQuery
